import Mathlib

/-!
Verification development for `catto.py`, a small concatenative stack-based
scripting-language interpreter.  The Python source is shallowly embedded:

* machine strings are `String` (sequences of unicode scalar values, which
  agrees with Python `str` for all inputs considered here);
* Python exceptions are `Except` values;
* the mutable `Stack` is a `List String` whose head is the top of the stack;
* the process-wide mutable `dictionary` is threaded through the evaluator as
  an association list in which a fresh binding is consed on the front
  (lookup finds the most recent binding, matching `dict` overwrite);
* the unbounded `while` loop of `evaluateWords` and the native recursion of
  the `eval` builtin are made total with an explicit fuel parameter: running
  out of fuel models non-termination-so-far / the host recursion limit;
* Python `float` values are modelled as exact unnormalised rationals
  (`PyFloat`).  This is value-faithful for the small decimal quantities
  exercised in this development (where IEEE double arithmetic is exact);
  shortest-roundtrip repr, scientific notation for extreme magnitudes,
  `inf`/`nan` and double rounding are outside the model and unused here.
-/

/-- `WordType` from the source: the three word classifications. -/
inductive WordType where
  | STRING
  | DEFINE
  | CALL
deriving DecidableEq, Repr

/-- `Word` from the source: a classified unit of program text. -/
structure Word where
  type : WordType
  value : String
deriving DecidableEq, Repr

/-- `Token = tuple[str, str, str]` from the source: (sigil, shortString,
longString); exactly one of the last two components is produced by the
regular expression's two mutually exclusive capture groups, the other is
the empty string. -/
def Token := String × String × String

/-- The exceptions that can escape lexing/parsing in the source:
`ValueError` from `bytes(...).decode("unicode_escape")` on a malformed
escape, and the `NotImplementedError` guarding the unreachable sigil case. -/
inductive ParseError where
  | escapeError
  | invalidWordType
deriving DecidableEq, Repr

/-- The `Stack` class: a list of strings, head = top. -/
abbrev Stack := List String

/-- `Stack.push`: append to the top. -/
def Stack.push (s : Stack) (item : String) : Stack := item :: s

/-- `Stack.pop`: remove and return the top element, or return the empty
string (leaving the stack empty) when the stack is empty. -/
def Stack.pop (s : Stack) : String × Stack :=
  match s with
  | [] => ("", [])
  | x :: rest => (x, rest)

/-- `[stack.pop() for _ in range(n)]`: pop `n` values (top first),
returning them in pop order together with the remaining stack. -/
def popN : Nat → Stack → List String × Stack
  | 0, s => ([], s)
  | n + 1, s =>
    let p := Stack.pop s
    let q := popN n p.2
    (p.1 :: q.1, q.2)

/-! ## Tokenizer

The source tokenizes each line with
`findall(r'([:$]?)(?:([^ \t\r"]+)|"((?:[^"\x7b0,1\x7d]*...)")')` - an optional
sigil `:` or `$`, followed by either a maximal run of characters other than
space, tab, carriage return and double quote, or a double-quoted segment
whose body consists of non-quote non-backslash characters and
backslash-plus-any-character pairs.  `findall` semantics are reproduced
exactly: match attempts advance one character on failure, and a consumed
sigil is given back (regex backtracking) when neither alternative matches
after it. -/

/-- Characters allowed in a bare (unquoted) token: anything except space,
tab, carriage return and the double quote, i.e. the class `[^ \t\r"]`. -/
def bareChar (c : Char) : Bool :=
  !(c == ' ' || c == '\t' || c == '\r' || c == '"')

/-- Scan a quoted body `(?:[^"\\]*(?:\\.)?)*` followed by the closing quote.
Input is the character list after the opening quote; returns the raw body
(escape pairs kept verbatim) and the rest after the closing quote, or
`none` when no closing quote is reachable (a bare backslash cannot be
absorbed by the body). -/
def sqGo : Nat → List Char → Option (List Char × List Char)
  | _ + 1, '"' :: rest => some ([], rest)
  | fuel + 1, '\\' :: c :: rest =>
    (sqGo fuel rest).map (fun p => ('\\' :: c :: p.1, p.2))
  | _ + 1, '\\' :: [] => none
  | fuel + 1, c :: rest =>
    (sqGo fuel rest).map (fun p => (c :: p.1, p.2))
  | _ + 1, [] => none
  | 0, _ => none

/-- The regex alternative `(?:([^ \t\r"]+)|"(body)")` at a fixed position:
either a nonempty bare run (second tuple component empty) or a quoted body
(first component empty).  Returns `(shortString, longString)` and the rest. -/
def matchAlt (cs : List Char) : Option ((String × String) × List Char) :=
  match cs with
  | [] => none
  | c :: rest =>
    if bareChar c then
      some ((String.mk ((c :: rest).takeWhile bareChar), ""),
            (c :: rest).dropWhile bareChar)
    else if c == '"' then
      match sqGo rest.length rest with
      | some (body, rest') => some (("", String.mk body), rest')
      | none => none
    else none

/-- One regex match attempt at a fixed position: greedy optional sigil with
backtracking (if the alternatives fail after a consumed sigil, retry with
the empty sigil at the same position, in which case the sigil character
itself can begin a bare run). -/
def matchAt (cs : List Char) : Option (Token × List Char) :=
  match cs with
  | [] => none
  | c :: rest =>
    if c == ':' || c == '$' then
      match matchAlt rest with
      | some ((sh, lo), rest') => some ((String.singleton c, sh, lo), rest')
      | none =>
        match matchAlt (c :: rest) with
        | some ((sh, lo), rest') => some (("", sh, lo), rest')
        | none => none
    else
      match matchAlt (c :: rest) with
      | some ((sh, lo), rest') => some (("", sh, lo), rest')
      | none => none

/-- `findall` scan: try a match at each position, emitting it and resuming
after it, otherwise advance one character. -/
def lexGo : Nat → List Char → List Token
  | 0, _ => []
  | _ + 1, [] => []
  | fuel + 1, c :: rest =>
    match matchAt (c :: rest) with
    | some (t, rest') => t :: lexGo fuel rest'
    | none => lexGo fuel rest

/-- Tokenize one input line (which contains no newline). -/
def lexLineChars (cs : List Char) : List Token :=
  lexGo cs.length cs

/-- `lexLines`: concatenation of the per-line token sequences. -/
def lexLines (lines : List (List Char)) : List Token :=
  (lines.map lexLineChars).flatten

/-- Python `string.split("\n")`: split into lines at newline characters;
the empty string yields one empty line. -/
def splitOnNewline : List Char → List (List Char)
  | [] => [[]]
  | '\n' :: rest => [] :: splitOnNewline rest
  | c :: rest =>
    match splitOnNewline rest with
    | [] => [[c]]
    | l :: ls => (c :: l) :: ls

/-- `lexString`: split on newlines and tokenize line by line. -/
def lexString (s : String) : List Token :=
  lexLines (splitOnNewline s.data)

/-! ## Escape decoding

The parser decodes quoted bodies with
`bytes(longString, "utf-8").decode("unicode_escape")`.  The decoder is
reproduced for character data: single-character escapes, up to three octal
digits, `\xhh`, `\uhhhh`, `\Uhhhhhhhh` (failing on truncated hex escapes
exactly as CPython does), pass-through of unrecognized escapes with their
backslash, and failure on a trailing bare backslash.  Modelled from the
character-level behaviour: the byte-level mojibake for non-ASCII input,
`\N\x7bname\x7d` named escapes (which need the host's Unicode name database)
and lone-surrogate escapes are outside the model; all are unused here. -/

/-- Decimal digit value of a character, if any. -/
def digitVal? (c : Char) : Option Nat :=
  if 48 ≤ c.toNat ∧ c.toNat ≤ 57 then some (c.toNat - 48) else none

/-- Hexadecimal digit value of a character, if any. -/
def hexVal? (c : Char) : Option Nat :=
  if 48 ≤ c.toNat ∧ c.toNat ≤ 57 then some (c.toNat - 48)
  else if 97 ≤ c.toNat ∧ c.toNat ≤ 102 then some (c.toNat - 87)
  else if 65 ≤ c.toNat ∧ c.toNat ≤ 70 then some (c.toNat - 55)
  else none

/-- Octal digit value of a character, if any. -/
def octVal? (c : Char) : Option Nat :=
  if 48 ≤ c.toNat ∧ c.toNat ≤ 55 then some (c.toNat - 48) else none

/-- Read exactly `k` hex digits, accumulating their value. -/
def hexSeqAux : Nat → Nat → List Char → Option (Nat × List Char)
  | 0, acc, cs => some (acc, cs)
  | k + 1, acc, c :: cs =>
    match hexVal? c with
    | some d => hexSeqAux k (acc * 16 + d) cs
    | none => none
  | _ + 1, _, [] => none

/-- Read up to `k` further octal digits, accumulating their value. -/
def octCont : Nat → Nat → List Char → Nat × List Char
  | 0, acc, cs => (acc, cs)
  | k + 1, acc, c :: cs =>
    match octVal? c with
    | some d => octCont k (acc * 8 + d) cs
    | none => (acc, c :: cs)
  | _ + 1, acc, [] => (acc, [])

/-- Prepend a decoded character to the result of further decoding. -/
def ueCons (c : Char) (e : Except ParseError (List Char)) :
    Except ParseError (List Char) :=
  e.map (c :: ·)

/-- Core of the `unicode_escape` decoder. -/
def ueGo : Nat → List Char → Except ParseError (List Char)
  | 0, _ => .ok []
  | _ + 1, [] => .ok []
  | fuel + 1, '\\' :: rest =>
    match rest with
    | [] => .error .escapeError
    | c :: rest' =>
      if c == '\n' then ueGo fuel rest'
      else if c == '\\' then ueCons '\\' (ueGo fuel rest')
      else if c == '\'' then ueCons '\'' (ueGo fuel rest')
      else if c == '"' then ueCons '"' (ueGo fuel rest')
      else if c == 'b' then ueCons (Char.ofNat 8) (ueGo fuel rest')
      else if c == 'f' then ueCons (Char.ofNat 12) (ueGo fuel rest')
      else if c == 't' then ueCons '\t' (ueGo fuel rest')
      else if c == 'n' then ueCons '\n' (ueGo fuel rest')
      else if c == 'r' then ueCons '\r' (ueGo fuel rest')
      else if c == 'v' then ueCons (Char.ofNat 11) (ueGo fuel rest')
      else if c == 'a' then ueCons (Char.ofNat 7) (ueGo fuel rest')
      else
        match octVal? c with
        | some d =>
          let p := octCont 2 d rest'
          ueCons (Char.ofNat p.1) (ueGo fuel p.2)
        | none =>
          if c == 'x' then
            match hexSeqAux 2 0 rest' with
            | some (v, rest'') => ueCons (Char.ofNat v) (ueGo fuel rest'')
            | none => .error .escapeError
          else if c == 'u' then
            match hexSeqAux 4 0 rest' with
            | some (v, rest'') =>
              if Nat.isValidChar v then ueCons (Char.ofNat v) (ueGo fuel rest'')
              else .error .escapeError
            | none => .error .escapeError
          else if c == 'U' then
            match hexSeqAux 8 0 rest' with
            | some (v, rest'') =>
              if Nat.isValidChar v then ueCons (Char.ofNat v) (ueGo fuel rest'')
              else .error .escapeError
            | none => .error .escapeError
          else if c == 'N' then .error .escapeError
          else ueCons '\\' (ueCons c (ueGo fuel rest'))
  | fuel + 1, c :: rest => ueCons c (ueGo fuel rest)

/-- `bytes(s, "utf-8").decode("unicode_escape")` on character data. -/
def unicodeEscape (s : String) : Except ParseError String :=
  (ueGo s.data.length s.data).map String.mk

/-! ## Parser -/

/-- `parseTokens`: for each token, decode the quoted body when the bare
capture is empty (raising on a malformed escape), otherwise take the bare
text verbatim; then classify by sigil.  A sigil other than the three the
tokenizer can produce raises `NotImplementedError`. -/
def parseTokens : List Token → Except ParseError (List Word)
  | [] => .ok []
  | (sig, sh, lo) :: rest =>
    match (if sh = "" then unicodeEscape lo else .ok sh) with
    | .error e => .error e
    | .ok value =>
      match (match sig with
             | "" => Except.ok (Word.mk .STRING value)
             | ":" => Except.ok (Word.mk .DEFINE value)
             | "$" => Except.ok (Word.mk .CALL value)
             | _ => Except.error ParseError.invalidWordType) with
      | .error e => .error e
      | .ok w =>
        match parseTokens rest with
        | .error e => .error e
        | .ok ws => .ok (w :: ws)

/-! ## Numeric model -/

/-- A Python float, modelled as an exact unnormalised fraction
(denominator positive in all reachable values). -/
structure PyFloat where
  num : Int
  den : Nat
deriving DecidableEq, Repr

/-- Float addition. -/
def pfAdd (x y : PyFloat) : PyFloat :=
  ⟨x.num * (y.den : Int) + y.num * (x.den : Int), x.den * y.den⟩

/-- Float subtraction. -/
def pfSub (x y : PyFloat) : PyFloat :=
  ⟨x.num * (y.den : Int) - y.num * (x.den : Int), x.den * y.den⟩

/-- Float multiplication. -/
def pfMul (x y : PyFloat) : PyFloat :=
  ⟨x.num * y.num, x.den * y.den⟩

/-- Float division (caller guarantees a nonzero divisor, as the interpreter
checks for `ZeroDivisionError` separately). -/
def pfDiv (x y : PyFloat) : PyFloat :=
  if y.num < 0 then ⟨-(x.num * (y.den : Int)), x.den * y.num.natAbs⟩
  else ⟨x.num * (y.den : Int), x.den * y.num.natAbs⟩

/-- Exact value comparison (denominators positive). -/
def pfLt (x y : PyFloat) : Bool :=
  decide (x.num * (y.den : Int) < y.num * (x.den : Int))

/-- Exact value comparison (denominators positive). -/
def pfLe (x y : PyFloat) : Bool :=
  decide (x.num * (y.den : Int) ≤ y.num * (x.den : Int))

/-- The transient numeric values of `str2num`: `int | float`. -/
inductive PyNum where
  | i (v : Int)
  | f (v : PyFloat)
deriving DecidableEq, Repr

/-- Widen to float, as Python does for mixed int/float arithmetic. -/
def toPyFloat : PyNum → PyFloat
  | .i v => ⟨v, 1⟩
  | .f v => v

/-- `+` on `int | float`: int when both are ints, else float. -/
def numAdd : PyNum → PyNum → PyNum
  | .i a, .i b => .i (a + b)
  | a, b => .f (pfAdd (toPyFloat a) (toPyFloat b))

/-- `-` on `int | float`: int when both are ints, else float. -/
def numSub : PyNum → PyNum → PyNum
  | .i a, .i b => .i (a - b)
  | a, b => .f (pfSub (toPyFloat a) (toPyFloat b))

/-- `*` on `int | float`: int when both are ints, else float. -/
def numMul : PyNum → PyNum → PyNum
  | .i a, .i b => .i (a * b)
  | a, b => .f (pfMul (toPyFloat a) (toPyFloat b))

/-- Unary `-` on `int | float`. -/
def numNeg : PyNum → PyNum
  | .i a => .i (-a)
  | .f x => .f ⟨-x.num, x.den⟩

/-- Fractional decimal digits of `r / b` (with `r < b`), by long division,
stopping at the exact expansion or after `fuel` digits. -/
def fracDigits : Nat → Nat → Nat → String
  | 0, _, _ => ""
  | fuel + 1, r, b =>
    if r = 0 then ""
    else String.singleton (Char.ofNat (48 + r * 10 / b)) ++
         fracDigits fuel (r * 10 % b) b

/-- Python `str` of a float: sign, integer part, a decimal point, and the
fractional digits (`0` when the value is integral).  Faithful to CPython
for the finite-decimal values arising here; shortest-roundtrip digit
selection and scientific notation for extreme magnitudes are not modelled. -/
def pyStrFloat (x : PyFloat) : String :=
  (if x.num < 0 then "-" else "") ++ toString (x.num.natAbs / x.den) ++ "." ++
    (if x.num.natAbs % x.den = 0 then "0"
     else fracDigits 17 (x.num.natAbs % x.den) x.den)

/-- Python `str` of an `int | float` value. -/
def pyStrNum : PyNum → String
  | .i v => toString v
  | .f x => pyStrFloat x

/-- Value of a list of decimal digit characters. -/
def digitsVal (cs : List Char) : Nat :=
  cs.foldl (fun a c => a * 10 + ((digitVal? c).getD 0)) 0

/-- Python `int(string)` on the forms arising here: optional sign followed
by a nonempty run of decimal digits.  (Surrounding whitespace and digit
underscores, which CPython also accepts, are not modelled and unused.) -/
def pyParseInt (s : String) : Option Int :=
  match s.data with
  | '+' :: rest =>
    if rest ≠ [] ∧ rest.all (fun c => (digitVal? c).isSome)
    then some (digitsVal rest : Int) else none
  | '-' :: rest =>
    if rest ≠ [] ∧ rest.all (fun c => (digitVal? c).isSome)
    then some (-(digitsVal rest : Int)) else none
  | cs =>
    if cs ≠ [] ∧ cs.all (fun c => (digitVal? c).isSome)
    then some (digitsVal cs : Int) else none

/-- Scale a float by a power of ten (the exponent part of a literal). -/
def applyExp (x : PyFloat) (e : Int) : PyFloat :=
  if e < 0 then ⟨x.num, x.den * 10 ^ (-e).toNat⟩
  else ⟨x.num * (10 : Int) ^ e.toNat, x.den⟩

/-- Parse `[+-]?digits` at the end of the input (the exponent digits). -/
def parseExp (r : List Char) : Option Int :=
  let q := match r with
    | '+' :: rr => ((1 : Int), rr)
    | '-' :: rr => ((-1 : Int), rr)
    | rr => ((1 : Int), rr)
  let ds := q.2.takeWhile (fun c => (digitVal? c).isSome)
  let rest := q.2.dropWhile (fun c => (digitVal? c).isSome)
  if ds = [] then none
  else if rest = [] then some (q.1 * (digitsVal ds : Int))
  else none

/-- Python `float(string)` on the numeric-literal forms
`[+-]? (digits [. digits?] | . digits) ([eE] [+-]? digits)?`, with the
exact rational value.  (`inf`/`nan`, whitespace, underscores and double
rounding are not modelled and unused.) -/
def pyParseFloat (s : String) : Option PyFloat :=
  let q := match s.data with
    | '+' :: r => ((1 : Int), r)
    | '-' :: r => ((-1 : Int), r)
    | r => ((1 : Int), r)
  let ds := q.2.takeWhile (fun c => (digitVal? c).isSome)
  let cs1 := q.2.dropWhile (fun c => (digitVal? c).isSome)
  let fr := match cs1 with
    | '.' :: r =>
      (r.takeWhile (fun c => (digitVal? c).isSome),
       r.dropWhile (fun c => (digitVal? c).isSome))
    | r => (([] : List Char), r)
  let fs := fr.1
  let cs2 := fr.2
  if ds = [] ∧ fs = [] then none
  else
    let base : PyFloat :=
      ⟨q.1 * ((digitsVal ds * 10 ^ fs.length + digitsVal fs : Nat) : Int),
       10 ^ fs.length⟩
    match cs2 with
    | [] => some base
    | 'e' :: r => (parseExp r).map (applyExp base)
    | 'E' :: r => (parseExp r).map (applyExp base)
    | _ => none

/-- `str2num`: try `int(string)`, falling back to `float(string)`; an
unparsable string raises (to be caught by the operation wrapper). -/
def str2num (s : String) : Except Unit PyNum :=
  match pyParseInt s with
  | some i => .ok (.i i)
  | none =>
    match pyParseFloat s with
    | some q => .ok (.f q)
    | none => .error ()

/-- `str2bool`: exactly `"True"` or `"False"`, anything else raises. -/
def str2bool (s : String) : Except Unit Bool :=
  if s = "True" then .ok true
  else if s = "False" then .ok false
  else .error ()

/-- `str2int`: `int(float(string))`, i.e. float parse then truncation
toward zero. -/
def str2int (s : String) : Except Unit Int :=
  match pyParseFloat s with
  | some q => .ok (Int.tdiv q.num (q.den : Int))
  | none => .error ()

/-- Python `str` of a bool. -/
def pyStrBool (b : Bool) : String :=
  if b then "True" else "False"

/-! ## String builtin helpers -/

/-- Resolve one Python slice bound against a length `n`: negative bounds
count from the end, then everything is clamped to `[0, n]`. -/
def resolveIdx (n : Int) (i : Int) : Int :=
  if i < 0 then max (n + i) 0 else min i n

/-- Python `string[i : j]` slice semantics on character data. -/
def pySlice (s : String) (i j : Int) : String :=
  String.mk ((s.data.drop (resolveIdx (s.data.length : Int) i).toNat).take
    (resolveIdx (s.data.length : Int) j -
      resolveIdx (s.data.length : Int) i).toNat)

/-- Whether `pre` is a prefix of `l` (used for replacement scanning). -/
def startsWithList : List Char → List Char → Bool
  | [], _ => true
  | _ :: _, [] => false
  | a :: as, b :: bs => a == b && startsWithList as bs

/-- Left-to-right non-overlapping replacement scan (nonempty pattern). -/
def pyReplaceGo : Nat → List Char → List Char → List Char → List Char
  | _, [], _, _ => []
  | 0, s, _, _ => s
  | fuel + 1, c :: rest, old, new =>
    if startsWithList old (c :: rest) then
      new ++ pyReplaceGo fuel ((c :: rest).drop old.length) old new
    else c :: pyReplaceGo fuel rest old new

/-- Python `string.replace(old, new)`: all non-overlapping occurrences;
an empty pattern inserts `new` before every character and at the end. -/
def pyReplace (s old new : String) : String :=
  if old.data = [] then
    String.mk (new.data ++ (s.data.map (fun c => c :: new.data)).flatten)
  else String.mk (pyReplaceGo s.data.length s.data old.data new.data)

/-! ## Builtin operation functions

These are the lambdas registered in the source's builtin table, written
with explicit `Except` plumbing in place of Python exceptions. -/

/-- `lambda a, b: str(str2num(a) + str2num(b))`. -/
def addOp (a b : String) : Except Unit String :=
  match str2num a with
  | .error e => .error e
  | .ok x =>
    match str2num b with
    | .error e => .error e
    | .ok y => .ok (pyStrNum (numAdd x y))

/-- `lambda a, b: str(str2num(a) - str2num(b))`. -/
def subOp (a b : String) : Except Unit String :=
  match str2num a with
  | .error e => .error e
  | .ok x =>
    match str2num b with
    | .error e => .error e
    | .ok y => .ok (pyStrNum (numSub x y))

/-- `lambda a, b: str(str2num(a) * str2num(b))`. -/
def mulOp (a b : String) : Except Unit String :=
  match str2num a with
  | .error e => .error e
  | .ok x =>
    match str2num b with
    | .error e => .error e
    | .ok y => .ok (pyStrNum (numMul x y))

/-- `lambda a, b: str(str2num(a) / str2num(b))`: Python true division,
always a float; a zero divisor raises `ZeroDivisionError`. -/
def divOp (a b : String) : Except Unit String :=
  match str2num a with
  | .error e => .error e
  | .ok x =>
    match str2num b with
    | .error e => .error e
    | .ok y =>
      if (toPyFloat y).num = 0 then .error ()
      else .ok (pyStrFloat (pfDiv (toPyFloat x) (toPyFloat y)))

/-- `lambda x: str(-str2num(x))`. -/
def negOp (x : String) : Except Unit String :=
  match str2num x with
  | .error e => .error e
  | .ok v => .ok (pyStrNum (numNeg v))

/-- `lambda a, b: str(all([str2bool(a), str2bool(b)]))`. -/
def andOp (a b : String) : Except Unit String :=
  match str2bool a with
  | .error e => .error e
  | .ok p =>
    match str2bool b with
    | .error e => .error e
    | .ok q => .ok (pyStrBool (p && q))

/-- `lambda a, b: str(any([str2bool(a), str2bool(b)]))`. -/
def orOp (a b : String) : Except Unit String :=
  match str2bool a with
  | .error e => .error e
  | .ok p =>
    match str2bool b with
    | .error e => .error e
    | .ok q => .ok (pyStrBool (p || q))

/-- `lambda x: str(not str2bool(x))`. -/
def notOp (x : String) : Except Unit String :=
  match str2bool x with
  | .error e => .error e
  | .ok p => .ok (pyStrBool (!p))

/-- `lambda a, b: str(a == b)`: raw string equality. -/
def eqOp (a b : String) : Except Unit String :=
  .ok (pyStrBool (a == b))

/-- `lambda a, b: str(a != b)`: raw string inequality. -/
def neOp (a b : String) : Except Unit String :=
  .ok (pyStrBool (a != b))

/-- `lambda a, b: str(str2num(a) < str2num(b))`. -/
def ltOp (a b : String) : Except Unit String :=
  match str2num a with
  | .error e => .error e
  | .ok x =>
    match str2num b with
    | .error e => .error e
    | .ok y => .ok (pyStrBool (pfLt (toPyFloat x) (toPyFloat y)))

/-- `lambda a, b: str(str2num(a) > str2num(b))`. -/
def gtOp (a b : String) : Except Unit String :=
  match str2num a with
  | .error e => .error e
  | .ok x =>
    match str2num b with
    | .error e => .error e
    | .ok y => .ok (pyStrBool (pfLt (toPyFloat y) (toPyFloat x)))

/-- `lambda a, b: str(str2num(a) <= str2num(b))`. -/
def leOp (a b : String) : Except Unit String :=
  match str2num a with
  | .error e => .error e
  | .ok x =>
    match str2num b with
    | .error e => .error e
    | .ok y => .ok (pyStrBool (pfLe (toPyFloat x) (toPyFloat y)))

/-- `lambda a, b: str(str2num(a) >= str2num(b))`. -/
def geOp (a b : String) : Except Unit String :=
  match str2num a with
  | .error e => .error e
  | .ok x =>
    match str2num b with
    | .error e => .error e
    | .ok y => .ok (pyStrBool (pfLe (toPyFloat y) (toPyFloat x)))

/-- `lambda condition, trueString, falseString: trueString if
str2bool(condition) else falseString`. -/
def ifOp (condition t f : String) : Except Unit String :=
  match str2bool condition with
  | .error e => .error e
  | .ok b => .ok (if b then t else f)

/-- `lambda x: str(len(x))`. -/
def lenOp (x : String) : Except Unit String :=
  .ok (toString x.length)

/-- `lambda a, b: a + b`. -/
def catOp (a b : String) : Except Unit String :=
  .ok (a ++ b)

/-- `lambda string, start, end: string[str2int(start) : str2int(end)]`. -/
def substrOp (s start stop : String) : Except Unit String :=
  match str2int start with
  | .error e => .error e
  | .ok i =>
    match str2int stop with
    | .error e => .error e
    | .ok j => .ok (pySlice s i j)

/-- `lambda string, old, new: string.replace(old, new)`. -/
def replaceOp (s old new : String) : Except Unit String :=
  .ok (pyReplace s old new)

/-- `lambda x: str(str2int(x))`. -/
def intOp (x : String) : Except Unit String :=
  match str2int x with
  | .error e => .error e
  | .ok i => .ok (toString i)

/-- `lambda x: str(float(x))`. -/
def floatOp (x : String) : Except Unit String :=
  match pyParseFloat x with
  | some q => .ok (pyStrFloat q)
  | none => .error ()

/-! ## Wrapper builders -/

/-- The `try`/`except` around an operation body: a failed computation is
replaced by the sentinel `"Undefined"`. -/
def catchUndefined : Except Unit String → String
  | .ok r => r
  | .error _ => "Undefined"

/-- `createUnaryOpBuiltin`: pop one item, apply the function under a
catch-all, push the result (or `"Undefined"`). -/
def createUnaryOpBuiltin (func : String → Except Unit String)
    (stack : Stack) : Stack :=
  let p := Stack.pop stack
  catchUndefined (func p.1) :: p.2

/-- `createBinaryOpBuiltin`: pop `a` then `b`, apply `func b a` under a
catch-all, push the result (or `"Undefined"`). -/
def createBinaryOpBuiltin (func : String → String → Except Unit String)
    (stack : Stack) : Stack :=
  let pa := Stack.pop stack
  let pb := Stack.pop pa.2
  catchUndefined (func pb.1 pa.1) :: pb.2

/-- `createTrinaryOpBuiltin`: pop `a`, `b`, `c`, apply `func c b a` under a
catch-all, push the result (or `"Undefined"`). -/
def createTrinaryOpBuiltin
    (func : String → String → String → Except Unit String)
    (stack : Stack) : Stack :=
  let pa := Stack.pop stack
  let pb := Stack.pop pa.2
  let pc := Stack.pop pb.2
  catchUndefined (func pc.1 pb.1 pa.1) :: pc.2

/-- `createRotBuiltin`: pop `n` values, move the last-popped (deepest) to
the front, and push them back in reverse order.  The interpreter only
installs `n` between 3 and 9, for which `popN` always yields a nonempty
list, so `getLastD` coincides with Python's `values[-1]`. -/
def createRotBuiltin (n : Nat) (stack : Stack) : Stack :=
  let p := popN n stack
  (p.1.getLastD "" :: p.1.dropLast) ++ p.2

/-! ## Builtin table and evaluator -/

/-- The registered builtins.  Operation bodies are the functions above;
`evalB` marks the one builtin that re-enters the evaluator. -/
inductive Builtin where
  | dropB
  | dupeB
  | swapB
  | rotB (n : Nat)
  | unopB (f : String → Except Unit String)
  | binopB (f : String → String → Except Unit String)
  | trinopB (f : String → String → String → Except Unit String)
  | evalB

/-- Run a stack-only builtin (every builtin except `eval`, whose
re-entrant behaviour lives in the evaluator). -/
def runBuiltin : Builtin → Stack → Stack
  | .dropB, s => (Stack.pop s).2
  | .dupeB, s =>
    let p := Stack.pop s
    p.1 :: p.1 :: p.2
  | .swapB, s =>
    let pa := Stack.pop s
    let pb := Stack.pop pa.2
    pb.1 :: pa.1 :: pb.2
  | .rotB n, s => createRotBuiltin n s
  | .unopB f, s => createUnaryOpBuiltin f s
  | .binopB f, s => createBinaryOpBuiltin f s
  | .trinopB f, s => createTrinaryOpBuiltin f s
  | .evalB, s => s

/-- The builtin table, exactly the registrations in the source (including
`rot3` .. `rot9` from the registration loop). -/
def builtins (name : String) : Option Builtin :=
  match name with
  | "drop" => some .dropB
  | "dupe" => some .dupeB
  | "swap" => some .swapB
  | "rot3" => some (.rotB 3)
  | "rot4" => some (.rotB 4)
  | "rot5" => some (.rotB 5)
  | "rot6" => some (.rotB 6)
  | "rot7" => some (.rotB 7)
  | "rot8" => some (.rotB 8)
  | "rot9" => some (.rotB 9)
  | "+" => some (.binopB addOp)
  | "-" => some (.binopB subOp)
  | "*" => some (.binopB mulOp)
  | "/" => some (.binopB divOp)
  | "~" => some (.unopB negOp)
  | "and" => some (.binopB andOp)
  | "or" => some (.binopB orOp)
  | "not" => some (.unopB notOp)
  | "==" => some (.binopB eqOp)
  | "!=" => some (.binopB neOp)
  | "<" => some (.binopB ltOp)
  | ">" => some (.binopB gtOp)
  | "<=" => some (.binopB leOp)
  | ">=" => some (.binopB geOp)
  | "if" => some (.trinopB ifOp)
  | "len" => some (.unopB lenOp)
  | "cat" => some (.binopB catOp)
  | "substr" => some (.trinopB substrOp)
  | "replace" => some (.trinopB replaceOp)
  | "int" => some (.unopB intOp)
  | "float" => some (.unopB floatOp)
  | "eval" => some .evalB
  | _ => none

/-- The user dictionary: name to word sequence, most recent binding first
(lookup takes the first hit, matching `dict` overwrite semantics). -/
abbrev Dictionary := List (String × List Word)

/-- The mutable runtime state threaded through evaluation. -/
structure EvalState where
  stack : Stack
  dict : Dictionary
deriving DecidableEq, Repr

/-- Outcome of an evaluation: normal completion, fuel exhaustion (modelling
non-termination so far / the host recursion limit reached through `eval`),
or an exception escaping the evaluator (a parse failure from re-lexing a
popped string in `Define` or `eval`). -/
inductive EvalResult where
  | ok (st : EvalState)
  | fuelOut
  | err (e : ParseError)
deriving DecidableEq, Repr

/-- `evaluateWords`: the rewrite loop.  The word sequence is a work queue
consumed from the front; `STRING` pushes, `DEFINE` pops and re-parses a
definition body into the dictionary, `CALL` dispatches to the builtin
table first, then to the dictionary (splicing the stored words onto the
front of the queue), and is a no-op for unknown names.  The `eval` builtin
pops a string, re-parses it and evaluates it against the same state.
Fuel decreases at each processed word and at the `eval` re-entry. -/
def evaluateWords : Nat → List Word → EvalState → EvalResult
  | _, [], st => .ok st
  | 0, _ :: _, _ => .fuelOut
  | n + 1, w :: rest, st =>
    match w.type with
    | .STRING => evaluateWords n rest ⟨w.value :: st.stack, st.dict⟩
    | .DEFINE =>
      match parseTokens (lexString (Stack.pop st.stack).1) with
      | .ok ws =>
        evaluateWords n rest ⟨(Stack.pop st.stack).2, (w.value, ws) :: st.dict⟩
      | .error e => .err e
    | .CALL =>
      match builtins w.value with
      | some b =>
        match b with
        | .evalB =>
          match parseTokens (lexString (Stack.pop st.stack).1) with
          | .ok ws =>
            match evaluateWords n ws ⟨(Stack.pop st.stack).2, st.dict⟩ with
            | .ok st' => evaluateWords n rest st'
            | r => r
          | .error e => .err e
        | b' => evaluateWords n rest ⟨runBuiltin b' st.stack, st.dict⟩
      | none =>
        match List.lookup w.value st.dict with
        | some ws => evaluateWords n (ws ++ rest) st
        | none => evaluateWords n rest st

/-! ## Dispatch equations for the evaluator -/

/-- An exhausted work queue completes normally with the current state. -/
theorem evaluateWords_nil (n : Nat) (st : EvalState) :
    evaluateWords n [] st = .ok st := by
  cases n <;> rfl

/-- A `Call` step for a name registered as a stack-only builtin: the
builtin is invoked on the stack, regardless of any dictionary binding. -/
theorem evalCall_builtin (n : Nat) (name : String) (b : Builtin)
    (rest : List Word) (s : Stack) (d : Dictionary)
    (hb : builtins name = some b) (hne : b ≠ Builtin.evalB) :
    evaluateWords (n + 1) (⟨.CALL, name⟩ :: rest) ⟨s, d⟩ =
      evaluateWords n rest ⟨runBuiltin b s, d⟩ := by
  cases b with
  | evalB => exact absurd rfl hne
  | dropB => simp [evaluateWords, hb]
  | dupeB => simp [evaluateWords, hb]
  | swapB => simp [evaluateWords, hb]
  | rotB k => simp [evaluateWords, hb]
  | unopB f => simp [evaluateWords, hb]
  | binopB f => simp [evaluateWords, hb]
  | trinopB f => simp [evaluateWords, hb]

/-- A `Call` step for a name registered as the `eval` builtin. -/
theorem evalCall_evalB (n : Nat) (name : String)
    (rest : List Word) (s : Stack) (d : Dictionary)
    (hb : builtins name = some Builtin.evalB) :
    evaluateWords (n + 1) (⟨.CALL, name⟩ :: rest) ⟨s, d⟩ =
      (match parseTokens (lexString (Stack.pop s).1) with
       | .ok ws =>
         (match evaluateWords n ws ⟨(Stack.pop s).2, d⟩ with
          | .ok st' => evaluateWords n rest st'
          | r => r)
       | .error e => .err e) := by
  simp [evaluateWords, hb]

/-- A `Call` step for a dictionary-bound name that is not a builtin: the
stored word sequence is spliced onto the front of the work queue. -/
theorem evalCall_dict (n : Nat) (name : String) (ws : List Word)
    (rest : List Word) (s : Stack) (d : Dictionary)
    (hb : builtins name = none) (hd : List.lookup name d = some ws) :
    evaluateWords (n + 1) (⟨.CALL, name⟩ :: rest) ⟨s, d⟩ =
      evaluateWords n (ws ++ rest) ⟨s, d⟩ := by
  simp [evaluateWords, hb, hd]

/-- A `Call` step for a name bound in neither table: a silent no-op. -/
theorem evalCall_undef (n : Nat) (name : String)
    (rest : List Word) (s : Stack) (d : Dictionary)
    (hb : builtins name = none) (hd : List.lookup name d = none) :
    evaluateWords (n + 1) (⟨.CALL, name⟩ :: rest) ⟨s, d⟩ =
      evaluateWords n rest ⟨s, d⟩ := by
  simp [evaluateWords, hb, hd]

/-- C1: every `Call(name)` word resolves against the builtin table first -
a registered name is invoked on the stack (or, for `eval`, re-enters the
evaluator) no matter what the dictionary binds; a non-builtin name bound
in the dictionary splices its stored word sequence onto the front of the
remaining work queue; a name bound in neither table is a silent no-op that
leaves the stack and the dictionary unchanged and continues with the next
word. -/
theorem callResolution (n : Nat) (name : String) (rest : List Word)
    (s : Stack) (d : Dictionary) :
    (∀ b, builtins name = some b → b ≠ Builtin.evalB →
      evaluateWords (n + 1) (⟨.CALL, name⟩ :: rest) ⟨s, d⟩ =
        evaluateWords n rest ⟨runBuiltin b s, d⟩) ∧
    (builtins name = some Builtin.evalB →
      evaluateWords (n + 1) (⟨.CALL, name⟩ :: rest) ⟨s, d⟩ =
        (match parseTokens (lexString (Stack.pop s).1) with
         | .ok ws =>
           (match evaluateWords n ws ⟨(Stack.pop s).2, d⟩ with
            | .ok st' => evaluateWords n rest st'
            | r => r)
         | .error e => .err e)) ∧
    (builtins name = none → ∀ ws, List.lookup name d = some ws →
      evaluateWords (n + 1) (⟨.CALL, name⟩ :: rest) ⟨s, d⟩ =
        evaluateWords n (ws ++ rest) ⟨s, d⟩) ∧
    (builtins name = none → List.lookup name d = none →
      evaluateWords (n + 1) (⟨.CALL, name⟩ :: rest) ⟨s, d⟩ =
        evaluateWords n rest ⟨s, d⟩) :=
  ⟨fun b hb hne => evalCall_builtin n name b rest s d hb hne,
   fun hb => evalCall_evalB n name rest s d hb,
   fun hb ws hd => evalCall_dict n name ws rest s d hb hd,
   fun hb hd => evalCall_undef n name rest s d hb hd⟩

/-- Witness for C1: on the stack `["x"]`, calling the builtin `dupe`
(resolved with builtin priority) duplicates the top element. -/
theorem callResolutionInstance :
    evaluateWords 1 [⟨.CALL, "dupe"⟩] ⟨["x"], []⟩ = .ok ⟨["x", "x"], []⟩ := by
  have h := (callResolution 0 "dupe" [] ["x"] []).1 Builtin.dupeB rfl
    (fun hcontra => Builtin.noConfusion hcontra)
  exact h.trans rfl

/-- C2: a dictionary-bound, non-builtin word invoked by `Call` evaluates
exactly as its stored word sequence: the call step rewrites to the body
(with one unit of fuel consumed), and both programs complete to the same
final stack and dictionary. -/
theorem definedWordExpansion (name : String) (ws : List Word)
    (s : Stack) (d : Dictionary) (st' : EvalState)
    (hb : builtins name = none) (hd : List.lookup name d = some ws) :
    (∀ n, evaluateWords (n + 1) [⟨.CALL, name⟩] ⟨s, d⟩ =
      evaluateWords n ws ⟨s, d⟩) ∧
    ((∃ n, evaluateWords n [⟨.CALL, name⟩] ⟨s, d⟩ = .ok st') ↔
      (∃ n, evaluateWords n ws ⟨s, d⟩ = .ok st')) := by
  have hstep : ∀ n, evaluateWords (n + 1) [⟨.CALL, name⟩] ⟨s, d⟩ =
      evaluateWords n ws ⟨s, d⟩ := by
    intro n
    have h := evalCall_dict n name ws [] s d hb hd
    simpa using h
  refine ⟨hstep, ?_, ?_⟩
  · rintro ⟨n, hn⟩
    cases n with
    | zero => exact absurd hn (by simp [evaluateWords])
    | succ m => exact ⟨m, (hstep m).symm.trans hn⟩
  · rintro ⟨n, hn⟩
    exact ⟨n + 1, (hstep n).trans hn⟩

/-- Witness for C2: with `double` bound to `$dupe $+` and stack `["4"]`,
calling `$double` terminates with stack `["8"]`, as evaluating the body
does. -/
theorem definedWordExpansionInstance :
    ∃ n, evaluateWords n [⟨.CALL, "double"⟩]
      ⟨["4"], [("double", [⟨.CALL, "dupe"⟩, ⟨.CALL, "+"⟩])]⟩ =
      .ok ⟨["8"], [("double", [⟨.CALL, "dupe"⟩, ⟨.CALL, "+"⟩])]⟩ := by
  exact (definedWordExpansion "double" [⟨.CALL, "dupe"⟩, ⟨.CALL, "+"⟩]
    ["4"] [("double", [⟨.CALL, "dupe"⟩, ⟨.CALL, "+"⟩])]
    ⟨["8"], [("double", [⟨.CALL, "dupe"⟩, ⟨.CALL, "+"⟩])]⟩
    rfl rfl).2.mpr ⟨2, rfl⟩

/-- Counterexample to C6 as stated: on the *empty* stack, `dupe` then
`drop` is not a no-op - the underflow pop manufactures an empty string, so
the stack ends up holding one empty string. -/
theorem dupeDropEmptyCounter :
    evaluateWords 2 [⟨.CALL, "dupe"⟩, ⟨.CALL, "drop"⟩] ⟨[], []⟩ =
      .ok ⟨[""], []⟩ ∧ ([""] : Stack) ≠ [] :=
  ⟨rfl, by decide⟩

/-- C6 (amended): on every *nonempty* stack, executing the builtin `dupe`
followed by the builtin `drop` leaves the stack (and dictionary) exactly
as before. -/
theorem dupeDropIdentity (x : String) (rest : Stack) (d : Dictionary)
    (n : Nat) :
    runBuiltin .dropB (runBuiltin .dupeB (x :: rest)) = x :: rest ∧
    evaluateWords (n + 2) [⟨.CALL, "dupe"⟩, ⟨.CALL, "drop"⟩]
      ⟨x :: rest, d⟩ = .ok ⟨x :: rest, d⟩ := by
  refine ⟨rfl, ?_⟩
  have h : evaluateWords (n + 2) [⟨.CALL, "dupe"⟩, ⟨.CALL, "drop"⟩]
      ⟨x :: rest, d⟩ = evaluateWords n [] ⟨x :: rest, d⟩ := rfl
  rw [h, evaluateWords_nil]

/-- C9: `pop` removes and returns the top element when one exists, returns
the empty string on an empty stack without signalling failure, and hence
`drop` twice on a fresh empty stack completes normally leaving it empty. -/
theorem popSemantics (x : String) (s : Stack) (d : Dictionary) :
    Stack.pop (x :: s) = (x, s) ∧
    Stack.pop ([] : Stack) = ("", []) ∧
    evaluateWords 2 [⟨.CALL, "drop"⟩, ⟨.CALL, "drop"⟩] ⟨[], d⟩ =
      .ok ⟨[], d⟩ :=
  ⟨rfl, rfl, rfl⟩

/-! ## Wrapper and rotation properties -/

/-- C4: every operation built from the unary/binary/trinary wrappers, for
any underlying function and any stack (however short), pops exactly its
input arity and pushes exactly one result, substituting the literal string
`"Undefined"` whenever the underlying computation fails, and never lets a
failure escape; in particular `"abc" "1" +` yields `"Undefined"`. -/
theorem builtinFailureContainment (f : String → Except Unit String)
    (g : String → String → Except Unit String)
    (h : String → String → String → Except Unit String) (s : Stack) :
    createUnaryOpBuiltin f s =
      catchUndefined (f (s.getD 0 "")) :: s.drop 1 ∧
    createBinaryOpBuiltin g s =
      catchUndefined (g (s.getD 1 "") (s.getD 0 "")) :: s.drop 2 ∧
    createTrinaryOpBuiltin h s =
      catchUndefined (h (s.getD 2 "") (s.getD 1 "") (s.getD 0 "")) ::
        s.drop 3 ∧
    (∀ e, catchUndefined (Except.error e) = "Undefined") ∧
    evaluateWords 1 [⟨.CALL, "+"⟩] ⟨["1", "abc"], []⟩ =
      .ok ⟨["Undefined"], []⟩ := by
  rcases s with _ | ⟨a, _ | ⟨b, _ | ⟨c, t⟩⟩⟩ <;>
    exact ⟨rfl, rfl, rfl, fun _ => rfl, rfl⟩

/-- Popping exactly the length of a stack prefix returns that prefix (in
top-down order) and the remainder. -/
theorem popN_append (front rest : Stack) :
    popN front.length (front ++ rest) = (front, rest) := by
  induction front with
  | nil => rfl
  | cons x xs ih => simp [popN, Stack.pop, ih]

/-- Popping more values than the stack holds pads the result with empty
strings from the underflow pops and empties the stack. -/
theorem popN_underflow (n : Nat) (s : Stack) (hle : s.length ≤ n) :
    popN n s = (s ++ List.replicate (n - s.length) "", []) := by
  induction n generalizing s with
  | zero =>
    have hnil : s = [] := List.eq_nil_of_length_eq_zero (Nat.le_zero.mp hle)
    subst hnil
    rfl
  | succ m ih =>
    cases s with
    | nil =>
      have h0 : popN m ([] : Stack) = (List.replicate m "", []) := by
        simpa using ih [] (Nat.zero_le m)
      simp [popN, Stack.pop, h0, List.replicate_succ]
    | cons x xs =>
      have hx : xs.length ≤ m := by simpa using hle
      simp [popN, Stack.pop, ih xs hx, Nat.succ_sub_succ]

/-- C8: for `n` between 3 and 9, `rotN` on a stack whose top `n` elements
are present moves the element at depth `n` (the last-popped, deepest one)
to the top while the other `n - 1` elements keep their relative order and
shift one position down; every name `rot3` .. `rot9` is registered to the
rotation of its index. -/
theorem rotBehavior (n : Nat) (front rest : Stack)
    (h3 : 3 ≤ n) (h9 : n ≤ 9) (hlen : front.length = n) :
    createRotBuiltin n (front ++ rest) =
      front.getLastD "" :: (front.dropLast ++ rest) ∧
    (∀ m, 3 ≤ m → m ≤ 9 →
      builtins ("rot" ++ toString m) = some (.rotB m)) := by
  constructor
  · subst hlen
    simp [createRotBuiltin, popN_append]
  · intro m hm3 hm9
    interval_cases m <;> rfl

/-- Witness for C8: `rot3` on the stack holding (bottom to top) `X`, `Y`,
`Z` yields (bottom to top) `Y`, `Z`, `X`. -/
theorem rotBehaviorInstance :
    createRotBuiltin 3 ["Z", "Y", "X"] = ["X", "Z", "Y"] := by
  have h := (rotBehavior 3 ["Z", "Y", "X"] [] (by norm_num) (by norm_num)
    rfl).1
  simpa using h

/-- C10: for `n` between 3 and 9, `rotN` on a stack holding fewer than `n`
elements grows it to exactly `n` elements: the missing operands are taken
as empty strings by the underflow pops and take part in the rotation, so
the result is an empty string on top, the original elements below it, and
the remaining padding at the bottom. -/
theorem rotUnderflow (n : Nat) (s : Stack)
    (h3 : 3 ≤ n) (h9 : n ≤ 9) (hlt : s.length < n) :
    createRotBuiltin n s =
      "" :: (s ++ List.replicate (n - s.length - 1) "") ∧
    (createRotBuiltin n s).length = n := by
  have hle : s.length ≤ n := Nat.le_of_lt hlt
  obtain ⟨k, hk⟩ : ∃ k, n - s.length = k + 1 := ⟨n - s.length - 1, by omega⟩
  have hmain : createRotBuiltin n s =
      "" :: (s ++ List.replicate (n - s.length - 1) "") := by
    simp only [createRotBuiltin, popN_underflow n s hle, hk,
      List.replicate_succ', ← List.append_assoc]
    simp [List.getLastD_concat, List.dropLast_concat]
  refine ⟨hmain, ?_⟩
  rw [hmain]
  simp
  omega

/-- Witness for C10: `rot3` on the one-element stack `[X]` yields (bottom
to top) `""`, `X`, `""`. -/
theorem rotUnderflowInstance :
    createRotBuiltin 3 ["X"] = ["", "X", ""] := by
  have h := (rotUnderflow 3 ["X"] (by norm_num) (by norm_num)
    (by norm_num)).1
  simpa using h

/-! ## Arithmetic result formatting -/

/-- `+` falls into the float branch as soon as either operand is a float. -/
theorem numAdd_float (u v : PyNum)
    (hf : (∃ qf, u = PyNum.f qf) ∨ (∃ qf, v = PyNum.f qf)) :
    numAdd u v = .f (pfAdd (toPyFloat u) (toPyFloat v)) := by
  cases u <;> cases v <;> simp [numAdd] <;>
    rcases hf with ⟨qf, h⟩ | ⟨qf, h⟩ <;> simp_all

/-- `-` falls into the float branch as soon as either operand is a float. -/
theorem numSub_float (u v : PyNum)
    (hf : (∃ qf, u = PyNum.f qf) ∨ (∃ qf, v = PyNum.f qf)) :
    numSub u v = .f (pfSub (toPyFloat u) (toPyFloat v)) := by
  cases u <;> cases v <;> simp [numSub] <;>
    rcases hf with ⟨qf, h⟩ | ⟨qf, h⟩ <;> simp_all

/-- `*` falls into the float branch as soon as either operand is a float. -/
theorem numMul_float (u v : PyNum)
    (hf : (∃ qf, u = PyNum.f qf) ∨ (∃ qf, v = PyNum.f qf)) :
    numMul u v = .f (pfMul (toPyFloat u) (toPyFloat v)) := by
  cases u <;> cases v <;> simp [numMul] <;>
    rcases hf with ⟨qf, h⟩ | ⟨qf, h⟩ <;> simp_all

/-- Every float rendering contains a decimal point. -/
theorem pyStrFloat_dot (q : PyFloat) : '.' ∈ (pyStrFloat q).data := by
  simp [pyStrFloat, String.data_append]

/-- Counterexample to C3 as stated: `"4" "2" /` has two integer-parsing
operands, yet Python true division pushes the floating-point-formatted
string `"2.0"`, which is not integer-formatted. -/
theorem divisionPromotionCounter :
    pyParseInt "4" = some 4 ∧ pyParseInt "2" = some 2 ∧
    evaluateWords 1 [⟨.CALL, "/"⟩] ⟨["2", "4"], []⟩ = .ok ⟨["2.0"], []⟩ ∧
    pyParseInt "2.0" = none ∧ "2.0" ≠ "2" :=
  ⟨rfl, rfl, rfl, rfl, by decide⟩

/-- C3 (amended): for `+`, `-` and `*`, two integer-parsing operands give
the canonical integer rendering of the exact integer result, and any
float operand switches the result to a float rendering; for `/`, whenever
both operands parse numerically and the divisor is nonzero, the result is
a float rendering even when both operands parse as integers; and every
float rendering is floating-point-formatted (contains a decimal point). -/
theorem arithmeticPromotion (g : String → String → Except Unit String)
    (x y : String) (s : Stack) :
    ((g = addOp ∨ g = subOp ∨ g = mulOp) → ∀ i j : Int,
      pyParseInt x = some i → pyParseInt y = some j →
      ∃ k : Int, createBinaryOpBuiltin g (y :: x :: s) = toString k :: s) ∧
    ((g = addOp ∨ g = subOp ∨ g = mulOp) → ∀ u v : PyNum,
      str2num x = .ok u → str2num y = .ok v →
      ((∃ qf, u = PyNum.f qf) ∨ (∃ qf, v = PyNum.f qf)) →
      ∃ q : PyFloat,
        createBinaryOpBuiltin g (y :: x :: s) = pyStrFloat q :: s) ∧
    (∀ u v : PyNum, str2num x = .ok u → str2num y = .ok v →
      (toPyFloat v).num ≠ 0 →
      ∃ q : PyFloat,
        createBinaryOpBuiltin divOp (y :: x :: s) = pyStrFloat q :: s) ∧
    (∀ q : PyFloat, '.' ∈ (pyStrFloat q).data) := by
  refine ⟨?_, ?_, ?_, pyStrFloat_dot⟩
  · rintro (rfl | rfl | rfl) i j hx hy
    · exact ⟨i + j, by simp [createBinaryOpBuiltin, Stack.pop, addOp,
        str2num, hx, hy, numAdd, pyStrNum, catchUndefined]⟩
    · exact ⟨i - j, by simp [createBinaryOpBuiltin, Stack.pop, subOp,
        str2num, hx, hy, numSub, pyStrNum, catchUndefined]⟩
    · exact ⟨i * j, by simp [createBinaryOpBuiltin, Stack.pop, mulOp,
        str2num, hx, hy, numMul, pyStrNum, catchUndefined]⟩
  · rintro (rfl | rfl | rfl) u v hu hv hf
    · exact ⟨pfAdd (toPyFloat u) (toPyFloat v),
        by simp [createBinaryOpBuiltin, Stack.pop, addOp, hu, hv,
          numAdd_float u v hf, pyStrNum, catchUndefined]⟩
    · exact ⟨pfSub (toPyFloat u) (toPyFloat v),
        by simp [createBinaryOpBuiltin, Stack.pop, subOp, hu, hv,
          numSub_float u v hf, pyStrNum, catchUndefined]⟩
    · exact ⟨pfMul (toPyFloat u) (toPyFloat v),
        by simp [createBinaryOpBuiltin, Stack.pop, mulOp, hu, hv,
          numMul_float u v hf, pyStrNum, catchUndefined]⟩
  · intro u v hu hv hnz
    exact ⟨pfDiv (toPyFloat u) (toPyFloat v),
      by simp [createBinaryOpBuiltin, Stack.pop, divOp, hu, hv, hnz,
        catchUndefined]⟩

/-- Witness for C3: `"2" "3" +` yields the integer rendering of some
integer (namely `"5"`). -/
theorem arithmeticPromotionInstance :
    ∃ k : Int, createBinaryOpBuiltin addOp ["3", "2"] = toString k :: [] :=
  (arithmeticPromotion addOp "2" "3" []).1 (Or.inl rfl) 2 3 rfl rfl

/-! ## Substring slicing -/

/-- Counterexample to C7 as stated: the popped operands `start = "3"` and
`end = "-1"` satisfy `start ≥ end` as truncated integers, yet
`"hello" "3" "-1" substr` pushes the nonempty string `"l"` (the negative
index counts from the end of the string rather than clipping). -/
theorem substrStartEndCounter :
    str2int "3" = .ok 3 ∧ str2int "-1" = .ok (-1) ∧ (3 : Int) ≥ -1 ∧
    evaluateWords 1 [⟨.CALL, "substr"⟩] ⟨["-1", "3", "hello"], []⟩ =
      .ok ⟨["l"], []⟩ ∧ "l" ≠ "" :=
  ⟨rfl, rfl, by norm_num, rfl, by decide⟩

/-- C7 (amended): `substr` converts its two index operands by float parse
then truncation toward zero, and pushes the slice of the string operand
for the half-open index range with Python slice semantics: each bound is
resolved (negative bounds count from the end of the string) and clamped to
the string's length, the result is empty whenever the *resolved* start is
at or beyond the resolved end, and resolved bounds always lie inside
`[0, length]` (so out-of-range indices clip instead of erroring). -/
theorem substrSemantics (str st en : String) (s : Stack) (i j : Int)
    (hi : str2int st = .ok i) (hj : str2int en = .ok j) :
    createTrinaryOpBuiltin substrOp (en :: st :: str :: s) =
      pySlice str i j :: s ∧
    (∀ (t : String) (a b : Int),
      resolveIdx (t.data.length : Int) b ≤ resolveIdx (t.data.length : Int) a →
      pySlice t a b = "") ∧
    (∀ (n a : Int), 0 ≤ n → 0 ≤ resolveIdx n a ∧ resolveIdx n a ≤ n) ∧
    (str2int "3.9" = .ok 3 ∧ str2int "-3.9" = .ok (-3)) := by
  refine ⟨?_, ?_, ?_, rfl, rfl⟩
  · simp [createTrinaryOpBuiltin, Stack.pop, substrOp, hi, hj,
      catchUndefined]
  · intro t a b hab
    have hz : (resolveIdx (t.data.length : Int) b -
        resolveIdx (t.data.length : Int) a).toNat = 0 := by omega
    unfold pySlice
    rw [hz]
    rfl
  · intro n a hn
    constructor <;> simp only [resolveIdx] <;> split <;> omega

/-- Witness for C7: `"hello" "1" "3" substr` yields `"el"`. -/
theorem substrSemanticsInstance :
    createTrinaryOpBuiltin substrOp ["3", "1", "hello"] = ["el"] := by
  have h := (substrSemantics "hello" "1" "3" [] 1 3 rfl rfl).1
  exact h.trans rfl

/-! ## Parser safety -/

/-- A token produced by one regex match attempt carries one of the three
sigils the grammar can produce. -/
theorem matchAt_sigil (cs : List Char) (t : Token) (rest' : List Char)
    (h : matchAt cs = some (t, rest')) :
    t.1 = "" ∨ t.1 = ":" ∨ t.1 = "$" := by
  cases cs with
  | nil => simp [matchAt] at h
  | cons c cr =>
    simp only [matchAt] at h
    by_cases hc : (c == ':' || c == '$') = true
    · rw [if_pos hc] at h
      rcases hAlt : matchAlt cr with _ | ⟨⟨sh, lo⟩, r2⟩
      · rw [hAlt] at h
        rcases hAlt2 : matchAlt (c :: cr) with _ | ⟨⟨sh2, lo2⟩, r3⟩
        · rw [hAlt2] at h
          exact absurd h (by simp)
        · rw [hAlt2] at h
          cases h
          left
          rfl
      · rw [hAlt] at h
        cases h
        rcases Bool.or_eq_true_iff.mp hc with hcc | hcc
        · right; left
          rw [show c = ':' from by simpa using hcc]
          rfl
        · right; right
          rw [show c = '$' from by simpa using hcc]
          rfl
    · rw [if_neg hc] at h
      rcases hAlt2 : matchAlt (c :: cr) with _ | ⟨⟨sh2, lo2⟩, r3⟩
      · rw [hAlt2] at h
        exact absurd h (by simp)
      · rw [hAlt2] at h
        cases h
        left
        rfl

/-- Every token produced by the scan loop carries a grammar sigil. -/
theorem lexGo_sigil (fuel : Nat) :
    ∀ (cs : List Char) (t : Token), t ∈ lexGo fuel cs →
      t.1 = "" ∨ t.1 = ":" ∨ t.1 = "$" := by
  induction fuel with
  | zero =>
    intro cs t ht
    simp [lexGo] at ht
  | succ m ih =>
    intro cs t ht
    cases cs with
    | nil => simp [lexGo] at ht
    | cons c cr =>
      simp only [lexGo] at ht
      rcases hm : matchAt (c :: cr) with _ | ⟨t0, rest'⟩
      · rw [hm] at ht
        exact ih cr t ht
      · rw [hm] at ht
        rcases List.mem_cons.mp ht with rfl | htl
        · exact matchAt_sigil (c :: cr) t rest' hm
        · exact ih rest' t htl

/-- Every token produced by the tokenizer carries a grammar sigil. -/
theorem lexString_sigil (src : String) (t : Token) (ht : t ∈ lexString src) :
    t.1 = "" ∨ t.1 = ":" ∨ t.1 = "$" := by
  unfold lexString lexLines at ht
  rw [List.mem_flatten] at ht
  obtain ⟨l, hl, htl⟩ := ht
  rw [List.mem_map] at hl
  obtain ⟨line, _, rfl⟩ := hl
  exact lexGo_sigil line.length line t htl

/-- Parsing succeeds on any token sequence whose sigils come from the
grammar and whose quoted bodies all decode. -/
theorem parseTokens_ok (ts : List Token)
    (hsig : ∀ t ∈ ts, t.1 = "" ∨ t.1 = ":" ∨ t.1 = "$")
    (hesc : ∀ t ∈ ts, t.2.1 = "" → (unicodeEscape t.2.2).isOk = true) :
    ∃ ws, parseTokens ts = .ok ws := by
  induction ts with
  | nil => exact ⟨[], rfl⟩
  | cons t ts ih =>
    obtain ⟨ws, hws⟩ := ih
      (fun u hu => hsig u (List.mem_cons_of_mem t hu))
      (fun u hu => hesc u (List.mem_cons_of_mem t hu))
    obtain ⟨sig, sh, lo⟩ := t
    have hval : ∃ v, (if sh = "" then unicodeEscape lo else .ok sh) =
        Except.ok v := by
      by_cases hsh : sh = ""
      · have hok := hesc (sig, sh, lo) (List.mem_cons_self _ _) hsh
        rcases he : unicodeEscape lo with e | v
        · rw [he] at hok
          simp [Except.isOk, Except.toBool] at hok
        · exact ⟨v, by simp [hsh, he]⟩
      · exact ⟨sh, by simp [hsh]⟩
    obtain ⟨v, hv⟩ := hval
    rcases hsig (sig, sh, lo) (List.mem_cons_self _ _) with h1 | h1 | h1
    · subst h1
      exact ⟨Word.mk .STRING v :: ws, by simp only [parseTokens, hv, hws]⟩
    · subst h1
      exact ⟨Word.mk .DEFINE v :: ws, by simp only [parseTokens, hv, hws]⟩
    · subst h1
      exact ⟨Word.mk .CALL v :: ws, by simp only [parseTokens, hv, hws]⟩

/-- Counterexample to C5 as stated: the quoted token `"\x"` is permitted
by the tokenizer grammar (a backslash-escape pair), yet its escape
decoding fails (a truncated `\xhh` escape), so parsing the program `"\x"`
aborts with an error rather than degrading; the same failure escapes the
evaluator when a `Define` word re-parses such a string at run time. -/
theorem parserEscapeAbort :
    lexString "\"\\x\"" = [("", "", "\\x")] ∧
    parseTokens (lexString "\"\\x\"") = .error .escapeError ∧
    evaluateWords 2 [⟨.STRING, "\"\\x\""⟩, ⟨.DEFINE, "f"⟩] ⟨[], []⟩ =
      .err .escapeError :=
  ⟨rfl, rfl, rfl⟩

/-- C5 (amended): for every token sequence produced by the tokenizer in
which each quoted token's escape decoding succeeds, parsing succeeds (and
evaluation of the parsed words then observes only the modelled outcomes:
normal completion, the recursion/fuel limit, or an escape-decoding error
raised by re-parsing a popped string in `Define` or `eval`).  Escape
decoding failures are the one malformed-input case that aborts instead of
degrading to a sentinel or no-op. -/
theorem parserSafetyAmended (src : String)
    (hesc : ∀ t ∈ lexString src, t.2.1 = "" →
      (unicodeEscape t.2.2).isOk = true) :
    ∃ ws, parseTokens (lexString src) = .ok ws :=
  parseTokens_ok (lexString src)
    (fun t ht => lexString_sigil src t ht) hesc

/-- Witness for C5: the program `"a\n" 5` (one quoted token with a valid
escape, one bare token) parses successfully. -/
theorem parserSafetyInstance :
    ∃ ws, parseTokens (lexString "\"a\\n\" 5") = .ok ws :=
  parserSafetyAmended "\"a\\n\" 5" (by decide)
